import Mathlib

/-!
# Verification of the CONTABILIDADDIAN ingestion / normalization / merge layer

Shallow embedding of the parsing and merging code of the repository
(`src/bank_analyzer.py`, `src/data_loader.py`, `src/app.py`) together with
proofs of the specified properties.  Strings are modelled as Lean `String`s
(lists of characters), pandas tables as lists of rows of strings, floating
point amounts as exact rationals (`ℚ`), and Python exceptions as `Except`.
-/

namespace ContabilidadDian

/-! ## Character and string helpers

Python's `str.strip`, `str.upper`, `str.lower` and the substring operator
`in`, modelled on lists of characters.  `upChar`/`downChar` cover ASCII plus
the Spanish letters that occur in the source's keyword tables (Python's
`str.upper` is full Unicode; only these characters are ever exercised). -/

/-- Python whitespace as used by `str.strip` and the regex class `\s`. -/
def pyWS (c : Char) : Bool :=
  c = ' ' || c = '\t' || c = '\n' || c = '\r' || c = '\x0b' || c = '\x0c'

/-- `str.strip`: drop leading and trailing whitespace. -/
def stripWS (cs : List Char) : List Char :=
  ((cs.dropWhile pyWS).reverse.dropWhile pyWS).reverse

/-- Uppercase one character: ASCII plus the Spanish letters of the keyword
tables (á é í ó ú ñ). -/
def upChar (c : Char) : Char :=
  if 'a' ≤ c ∧ c ≤ 'z' then Char.ofNat (c.toNat - 32)
  else if c = 'á' then 'Á' else if c = 'é' then 'É' else if c = 'í' then 'Í'
  else if c = 'ó' then 'Ó' else if c = 'ú' then 'Ú' else if c = 'ñ' then 'Ñ'
  else c

/-- Lowercase one character: ASCII plus the Spanish letters of the keyword
tables. -/
def downChar (c : Char) : Char :=
  if 'A' ≤ c ∧ c ≤ 'Z' then Char.ofNat (c.toNat + 32)
  else if c = 'Á' then 'á' else if c = 'É' then 'é' else if c = 'Í' then 'í'
  else if c = 'Ó' then 'ó' else if c = 'Ú' then 'ú' else if c = 'Ñ' then 'ñ'
  else c

def upperL (cs : List Char) : List Char := cs.map upChar
def lowerL (cs : List Char) : List Char := cs.map downChar

def trimPy (s : String) : String := String.mk (stripWS s.toList)
def upperS (s : String) : String := String.mk (upperL s.toList)
def lowerS (s : String) : String := String.mk (lowerL s.toList)

/-- Does `pat` occur at the beginning of `s`? -/
def startsWithL : List Char → List Char → Bool
  | [], _ => true
  | _ :: _, [] => false
  | p :: ps, c :: cs => p = c && startsWithL ps cs

/-- Python's substring operator: `pat in s` (true for the empty pattern). -/
def containsL (s pat : List Char) : Bool :=
  match s with
  | [] => pat.isEmpty
  | _ :: t => startsWithL pat s || containsL t pat

/-- Substring test on `String`s (`pat in s` in Python). -/
def containsS (s pat : String) : Bool := containsL s.toList pat.toList

/-- Numeric value of a digit string (most significant digit first). -/
def natOfDigits (cs : List Char) : Nat :=
  cs.foldl (fun a c => 10 * a + (c.toNat - 48)) 0

/-! ## `_clean_number` (src/bank_analyzer.py, lines 131–145)

```python
def _clean_number(s) -> float:
    if s is None or str(s).strip() in ("", "-", "—", "."):
        return 0.0
    s = str(s).strip()
    if re.match(r'^\d{1,3}(\.\d{3})+(,\d+)?$', s):
        s = s.replace('.', '').replace(',', '.')
    else:
        s = s.replace(',', '')
    try:
        return float(re.sub(r'[^\d\.\-]', '', s))
    except ValueError:
        return 0.0
```
-/

/-- Matcher for the regex tail `((\.\d{3})*(,\d+)?)$` — the continuation after
the first `\.\d{3}` group has been consumed. -/
def colRest : List Char → Bool
  | [] => true
  | ',' :: ds => !ds.isEmpty && ds.all Char.isDigit
  | '.' :: a :: b :: c :: rest =>
      a.isDigit && b.isDigit && c.isDigit && colRest rest
  | _ => false

/-- The first `\.\d{3}` group of the Colombian pattern, followed by
`colRest`: anything not starting with a dot and three digits fails. -/
def colGroupsStart : List Char → Bool
  | '.' :: a :: b :: c :: r2 => a.isDigit && b.isDigit && c.isDigit && colRest r2
  | _ => false

/-- `re.match(r'^\d{1,3}(\.\d{3})+(,\d+)?$', s)`: one to three leading digits,
one or more dot-separated groups of exactly three digits, optionally a comma
followed by at least one digit. -/
def colMatch (cs : List Char) : Bool :=
  let lead := cs.takeWhile Char.isDigit
  let rest := cs.dropWhile Char.isDigit
  decide (1 ≤ lead.length) && decide (lead.length ≤ 3) && colGroupsStart rest

/-- Python `float()` on a string drawn from the alphabet `[0-9.\-]` (the only
characters surviving `re.sub(r'[^\d\.\-]', '', s)`): an optional leading
minus, an integer part, optionally a dot and a fractional part; at least one
digit overall, and no second dot or misplaced minus.  Unparseable input is
`none` (Python raises `ValueError`). -/
def pyFloatCore (cs : List Char) : Option ℚ :=
  let ip := cs.takeWhile Char.isDigit
  let rest := cs.dropWhile Char.isDigit
  if rest = [] then
    if ip.isEmpty then none else some (natOfDigits ip : ℚ)
  else if rest.head? = some '.' then
    let fr := rest.tail
    if fr.all Char.isDigit && !(ip.isEmpty && fr.isEmpty) then
      some ((natOfDigits ip : ℚ) + (natOfDigits fr : ℚ) / (10 : ℚ) ^ fr.length)
    else none
  else none

def pyFloat (cs : List Char) : Option ℚ :=
  if cs.head? = some '-' then (pyFloatCore cs.tail).map (fun q => -q)
  else pyFloatCore cs

/-- `_clean_number` on a character list. -/
def cleanNumberL (cs0 : List Char) : ℚ :=
  let t := stripWS cs0
  if t = [] ∨ t = ['-'] ∨ t = ['—'] ∨ t = ['.'] then 0
  else
    let s1 := if colMatch t then
                (t.filter (fun c => c ≠ '.')).map (fun c => if c = ',' then '.' else c)
              else t.filter (fun c => c ≠ ',')
    let s2 := s1.filter (fun c => c.isDigit || c = '.' || c = '-')
    match pyFloat s2 with
    | some q => q
    | none => 0

/-- `_clean_number` (src/bank_analyzer.py): converts `'1.234.567,89'` or
`'1,234,567.89'` to a numeric value, defaulting to `0` when unparseable. -/
def cleanNumber (s : String) : ℚ := cleanNumberL s.toList

/-! ## Bank detection and fiscal-category classification
(src/bank_analyzer.py, lines 27–123) -/

/-- `BANK_KEYWORDS` (src/bank_analyzer.py, lines 27–41), in source order. -/
def BANK_KEYWORDS : List (String × List String) :=
  [ ("Bancolombia",       ["bancolombia", "sucursal virtual personas", "bancolombia s.a",
                           "estado de cuenta", "cuenta de ahorros"]),
    ("Davivienda",        ["davivienda", "casa roja"]),
    ("Banco de Bogotá",   ["banco de bogota", "banco de bogotá"]),
    ("BBVA",              ["bbva"]),
    ("Nequi",             ["nequi"]),
    ("Bold",              ["bold.co", "datafono bold", "bold s.a"]),
    ("Banco Popular",     ["banco popular"]),
    ("Colpatria",         ["colpatria", "scotiabank"]),
    ("Bancoomeva",        ["bancoomeva"]),
    ("Banco Caja Social", ["caja social"]),
    ("Itaú",              ["itau", "itaú"]),
    ("AV Villas",         ["av villas"]) ]

/-- `_detect_bank` (src/bank_analyzer.py, lines 108–113): first bank whose
keyword list has a hit in the lowercased text, else the generic bank. -/
def detectBank (text : String) : String :=
  let tl := lowerS text
  match BANK_KEYWORDS.find? (fun p => p.2.any (fun k => containsS tl k)) with
  | some p => p.1
  | none => "Banco Genérico"

/-- `CATEGORY_RULES` (src/bank_analyzer.py, lines 45–89), in source order —
order encodes priority, first match wins. -/
def CATEGORY_RULES : List (String × List String) :=
  [ ("gmf_4x1000",    ["4X1000", "GRAVAMEN MOVIMIENTO", "GMF ", "IMPUESTO GMF",
                       "GRAVAMEN AL MOVIMIENTO"]),
    ("interes_pago",  ["INTERESES MORA", "COBRO INT", "CUOTA INT",
                       "INTERES CORRIENTE", "INTERESES CORRIENTES",
                       "INTERES DE MORA", "CARGOS FINANCIEROS", "COBRO INTERESES"]),
    ("interes_rcdo",  ["ABONO INTERESES", "INT AHORROS", "RENDIMIENTO FINANCIERO",
                       "INTERESES AHORROS", "RENDIMIENTOS", "INTERESES CUENTA",
                       "INTERESES CDTE"]),
    ("retencion",     ["RETENCION", "RETEFUENTE", "RETE FUENTE",
                       "RET. EN LA FUENTE", "RETENCIÓN EN LA FUENTE",
                       "AUTORETENC", "AUTORETENCION"]),
    ("parafiscal",    ["PARAFISCAL", "SALUD EPS", "PENSION AFP", "ARL ",
                       "CAJA COMP", "SENA ", "ICBF", "SEGURIDAD SOCIAL",
                       "PLANILLA PILA", "APORTES SOCIALES", "PLANILLA SOI"]),
    ("nomina",        ["NOMINA", "PAGO NOMINA", "DISPERSIÓN NÓMINA",
                       "PLANILLA NOMINA", "PAGO DE NOMINA", "DESPRENDIBLE",
                       "PAGO COLABORADORES"]),
    ("impuesto",      ["IMPUESTO", "DIAN ", "PAGO DIAN", "ICA BOGOTA",
                       "ICA MEDELLIN", "ICA CALI", "PREDIAL", "VEHICULOS",
                       "TIMBRE", "ICA MUNICIPIO", "INDUSTRIA Y COMERCIO"]),
    ("ingreso",       ["PAGO QR", "CONSIGNACION", "DEPOSITO", "ABONO CREDITO",
                       "PAGO RECIBIDO", "PAGO CLIENTE", "ABONO FACTURAS",
                       "TRANSFERENCIA RECIBIDA", "PAGO NEQUI RECIBIDO",
                       "ABONO CREDITO", "DESEMBOLSO"]),
    ("retiro",        ["RETIRO ", "CAJERO", "ATM ", "PAGO TC", "CUOTA TC",
                       "AVANCE TC", "AVANCE ATM", "COMPRA TARJETA", "COMPRA EN"]),
    ("transferencia", ["TRANSFERENCIA", "PSE", "NEQUI A", "DAVIPLATA",
                       "TRANSFIYA", "TRASLADO", "MOVIMIENTO BANCARIO",
                       "PAGO NEQUI ENVIADO"]),
    ("comision",      ["CUOTA MANEJO", "COMISION", "COMISIÓN",
                       "CARGO SERVICIO", "SERVICIO BANCARIO",
                       "CUOTA ADMINISTRACION", "CUOTA DE MANEJO"]) ]

/-- `CATEGORY_LABELS` (src/bank_analyzer.py, lines 91–104). -/
def CATEGORY_LABELS : List (String × String) :=
  [ ("gmf_4x1000",    "GMF / 4×1000"),
    ("interes_pago",  "Intereses Pagados"),
    ("interes_rcdo",  "Intereses Recibidos"),
    ("retencion",     "Retenciones"),
    ("parafiscal",    "Parafiscales"),
    ("nomina",        "Nómina"),
    ("impuesto",      "Impuestos"),
    ("ingreso",       "Ingresos / Pagos QR"),
    ("retiro",        "Retiros / Pagos Tarjeta"),
    ("transferencia", "Transferencias"),
    ("comision",      "Comisiones Bancarias"),
    ("otro",          "Otros Movimientos") ]

/-- The inner loop of `_classify`: first rule with a keyword hit in the
uppercased description wins. -/
def classifyGo (du : List Char) : List (String × List String) → String
  | [] => "otro"
  | (cat, kws) :: rest =>
      if kws.any (fun k => containsL du k.toList) then cat else classifyGo du rest

/-- `_classify` (src/bank_analyzer.py, lines 116–123): case-insensitive
first-match keyword classification of a transaction description; empty
description and no-hit both give `"otro"`. -/
def classify (desc : String) : String :=
  if desc = "" then "otro" else classifyGo (upperL desc.toList) CATEGORY_RULES

/-- `df['categoria'].map(CATEGORY_LABELS).fillna('Otros Movimientos')`. -/
def catLabelOf (c : String) : String :=
  match CATEGORY_LABELS.find? (fun p => p.1 = c) with
  | some p => p.2
  | none => "Otros Movimientos"

/-! ## `_parse_bancolombia` transaction loop (src/bank_analyzer.py, 189–251)

One matched transaction line of the Bancolombia statement grammar
`^(\d{1,2}/\d{2})\s+(.+?)\s+([\d,\.]+)\s+([\d,\.]+)\s*$`: day and month come
from the date group (`int`-converted, so natural numbers ≤ 99), the
description and the two numeric groups are kept raw.  The year `year` and
end month `endMonth` are the values extracted from the statement header
(`HASTA: YYYY/MM/DD`, with a now()-based fallback) before the loop starts;
the header-metadata extraction itself (titular, cuenta, summary totals) is
not part of the embedded fragment. -/

structure TxLine where
  day : Nat
  mon : Nat
  desc : String
  valorStr : String
  saldoStr : String
deriving DecidableEq, Repr

/-- One emitted movement row.  The `titular`/`cuenta` constants and the
after-the-loop `categoria`/`cat_label` columns (computed by applying
`classify` to `descripcion`) are omitted from the record. -/
structure MovRow where
  fecha : String
  descripcion : String
  debito : ℚ
  credito : ℚ
  saldo : ℚ
  banco : String
deriving DecidableEq, Repr

/-- `f"{n:02d}"` for `n ≤ 99`. -/
def pad2 (n : Nat) : String := if n < 10 then "0" ++ toString n else toString n

/-- Description keywords filtering out table-header artifact lines. -/
def headerKws : List String := ["FECHA", "DESCRIPCI", "SUCURSAL", "DCTO", "VALOR SALDO"]

/-- Credit-indicating description keywords used when no prior balance exists. -/
def creditKws : List String :=
  ["ABONO", "PAGO QR", "CONSIGNACION", "DEPOSITO", "TRANSFERENCIA RECIBIDA", "INTERESES"]

/-- The table-header artifact filter of the loop:
`any(k in du for k in ['FECHA', 'DESCRIPCI', 'SUCURSAL', 'DCTO', 'VALOR SALDO'])`. -/
def headerHit (l : TxLine) : Bool :=
  headerKws.any (fun k => containsL (upperL l.desc.toList) k.toList)

/-- The credit/debit decision: with a previous balance, credit iff the
balance rose or fell by less than one peso (`(saldo - prev_saldo) > -1`,
the 1-COP rounding tolerance); without one, credit iff the description
carries a credit-indicating keyword. -/
def txIsCredit (prev : Option ℚ) (du : List Char) (saldo : ℚ) : Bool :=
  match prev with
  | some p => decide (saldo - p > -1)
  | none => creditKws.any (fun k => containsL du k.toList)

/-- The row constructed for one accepted transaction line: the year rolls
back by one when the transaction month exceeds the statement's end month,
the date is formatted `dd/mm/yyyy`, and the positive `VALOR` lands on
exactly one of the debit/credit sides according to `txIsCredit`. -/
def mkMovRow (year endMonth : Nat) (prev : Option ℚ) (l : TxLine) : MovRow :=
  let valor := cleanNumber l.valorStr
  let saldo := cleanNumber l.saldoStr
  let txYear := if l.mon > endMonth then year - 1 else year
  let isCredit := txIsCredit prev (upperL l.desc.toList) saldo
  { fecha := pad2 l.day ++ "/" ++ pad2 l.mon ++ "/" ++ toString txYear,
    descripcion := l.desc,
    debito := if isCredit then 0 else valor,
    credito := if isCredit then valor else 0,
    saldo := saldo, banco := "Bancolombia" }

/-- The `for m in tx_pat.finditer(txt)` loop of `_parse_bancolombia`:
filters header-artifact and near-zero (`valor < 0.01`) rows — both skipped
*before* `prev_saldo` is updated — and emits one `MovRow` per surviving
line, threading the running balance forward.  `prev` is `prev_saldo`. -/
def processTx (year endMonth : Nat) : Option ℚ → List TxLine → List MovRow
  | _, [] => []
  | prev, l :: ls =>
    if headerHit l then
      processTx year endMonth prev ls
    else if cleanNumber l.valorStr < 1/100 then
      processTx year endMonth prev ls
    else
      mkMovRow year endMonth prev l
        :: processTx year endMonth (some (cleanNumber l.saldoStr)) ls

/-- `_parse_bancolombia` row extraction: `prev_saldo` starts as the
`SALDO ANTERIOR` summary value when positive, else `None`. -/
def parseBancolombiaTx (year endMonth : Nat) (saldoAnterior : ℚ)
    (lines : List TxLine) : List MovRow :=
  processTx year endMonth (if saldoAnterior > 0 then some saldoAnterior else none) lines

/-! ## Generic table path: `_parse_tables` and `_normalize_from_table`
(src/bank_analyzer.py, lines 276–366)

A pandas `DataFrame` of strings is a `RawTable`: the column names and the
rows (cells read with `dtype=str`; a missing cell reads as `""`). -/

structure RawTable where
  cols : List String
  rows : List (List String)
deriving DecidableEq, Repr

/-- A normalized movement row as produced by `_normalize_from_table` /
`_normalize_from_text`. -/
structure NormRow where
  fecha : String
  descripcion : String
  debito : ℚ
  credito : ℚ
  saldo : ℚ
  banco : String
  categoria : String
  catLabel : String
deriving DecidableEq, Repr

/-- Inner loop of `_find` in `_normalize_from_table`: index of the first
column whose (lowercased, stripped) name contains `kw`. -/
def idxHitAux (cols : List String) (kw : String) (i : Nat) : Option Nat :=
  match cols with
  | [] => none
  | c :: cs => if containsS c kw then some i else idxHitAux cs kw (i + 1)

/-- `_find(keywords)`: for each keyword in order, the first column containing
it; the keyword loop is outermost, matching the source. -/
def findColIdx (cols : List String) : List String → Option Nat
  | [] => none
  | kw :: rest =>
      match idxHitAux cols kw 0 with
      | some i => some i
      | none => findColIdx cols rest

/-- Labels of the post-filter regex
`^(DESCRIPCI[OÓ]N|CONCEPTO|MOVIMIENTO|FECHA|DETALLE|SALDO)\s*$`. -/
def headerLabels : List String :=
  ["DESCRIPCION", "DESCRIPCIÓN", "CONCEPTO", "MOVIMIENTO", "FECHA", "DETALLE", "SALDO"]

/-- `pd.Series.str.match` against the label regex: the uppercased
description is one of the labels followed only by whitespace. -/
def headerLabelMatch (s : String) : Bool :=
  headerLabels.any (fun lab =>
    startsWithL lab.toList s.toList && ((s.toList).drop lab.toList.length).all pyWS)

/-- `_normalize_from_table` (src/bank_analyzer.py, lines 332–366): map the
raw columns onto canonical fields by keyword containment (date and
description default to columns 0 and 1), coerce the amount columns with
`_clean_number` (absent columns become the constant `0`), classify, then
drop rows whose description has at most 2 characters or is a bare header
label. -/
def normalizeFromTable (t : RawTable) (banco : String) : List NormRow :=
  if t.rows.isEmpty then []
  else
    let colsN := t.cols.map (fun c => trimPy (lowerS c))
    let fechaI := match findColIdx colsN ["fecha", "date"] with
                  | some i => some i
                  | none => if 0 < t.cols.length then some 0 else none
    let descI := match findColIdx colsN ["descripcion", "concepto", "detalle", "movimiento"] with
                 | some i => some i
                 | none => if 1 < t.cols.length then some 1 else none
    let debI  := findColIdx colsN ["debito", "egreso", "cargo", "retiro"]
    let credI := findColIdx colsN ["credito", "ingreso", "abono"]
    let saldI := findColIdx colsN ["saldo", "balance"]
    let mkRow := fun (r : List String) =>
      let desc := trimPy (match descI with | some j => r.getD j "" | none => "")
      let cat := classify desc
      { fecha := trimPy (match fechaI with | some j => r.getD j "" | none => ""),
        descripcion := desc,
        debito  := match debI  with | some j => cleanNumber (r.getD j "") | none => 0,
        credito := match credI with | some j => cleanNumber (r.getD j "") | none => 0,
        saldo   := match saldI with | some j => cleanNumber (r.getD j "") | none => 0,
        banco := banco, categoria := cat, catLabel := catLabelOf cat : NormRow }
    ((t.rows.map mkRow).filter (fun r => 2 < r.descripcion.length)).filter
      (fun r => !headerLabelMatch (upperS r.descripcion))

/-- `re.search(r'\d{2}[\/\-]\d{2}[\/\-]\d{2,4}', text)`: some position starts
two digits, a separator, two digits, a separator, and at least two digits. -/
def hasDatePat : List Char → Bool
  | a :: b :: s1 :: c :: d :: s2 :: e :: f :: rest =>
      (a.isDigit && b.isDigit && (s1 = '/' || s1 = '-') && c.isDigit && d.isDigit
        && (s2 = '/' || s2 = '-') && e.isDigit && f.isDigit)
      || hasDatePat (b :: s1 :: c :: d :: s2 :: e :: f :: rest)
  | _ => false

/-- Row scan of `_parse_tables`: skip empty rows, capture the first
header-keyword row as the header, collect rows containing a date pattern. -/
def parseTablesAux : List (List String) → Option (List String) → List (List String) →
    Option (List String) × List (List String)
  | [], hdr, acc => (hdr, acc)
  | row :: rest, hdr, acc =>
    if row.isEmpty || !(row.any (fun c => c ≠ "")) then parseTablesAux rest hdr acc
    else
      let cleanRow := row.map trimPy
      let rowText := upperS (String.intercalate " " cleanRow)
      if ["FECHA", "DESCRIPCION", "DÉBITO", "CRÉDITO"].any (fun k => containsS rowText k) then
        parseTablesAux rest (match hdr with | none => some cleanRow | some h => some h) acc
      else if hasDatePat rowText.toList then parseTablesAux rest hdr (acc ++ [cleanRow])
      else parseTablesAux rest hdr acc

/-- Pad a row to `n` cells with empty strings. -/
def padTo (n : Nat) (r : List String) : List String :=
  (r ++ List.replicate n "").take n

/-- `_parse_tables` (src/bank_analyzer.py, lines 276–307): the extracted
tables of all pages, flattened; rows and header padded to a common width.
When no header row was captured, pandas numbers the columns `0, 1, …`. -/
def parseTables (tables : List (List (List String))) : RawTable :=
  let s := parseTablesAux tables.flatten none []
  let hdr := s.1
  let allRows := s.2
  if allRows.isEmpty then { cols := [], rows := [] }
  else
    match hdr with
    | some h =>
        let maxCols := max h.length ((allRows.map List.length).foldl max 0)
        { cols := padTo maxCols h, rows := allRows.map (padTo maxCols) }
    | none =>
        let w := (allRows.map List.length).foldl max 0
        { cols := (List.range w).map toString, rows := allRows.map (padTo w) }

/-! ## File access and propagation of I/O failure
(src/data_loader.py `load_file`/`load_nomina`/`load_exogena`/
`load_retenciones`; src/bank_analyzer.py `parse_bank_statement`)

A file on disk is `missing`, `corrupt`, or readable content; `readF` models
`pd.read_excel` / `pdfplumber.open`, which raise on the first two.  A Python
exception is the `.error` case of `Except`. -/

inductive FState (α : Type) where
  | missing
  | corrupt
  | ok (v : α)
deriving DecidableEq

/-- A read that raises on a missing or corrupt file. -/
def readF {α : Type} : FState α → Except String α
  | .missing => .error "FileNotFoundError"
  | .corrupt => .error "ParserError"
  | .ok v => .ok v

/-- A loaded table: header row and data rows. -/
abbrev Table := List String × List (List String)

/-- Header/data split of `load_file` (src/data_loader.py, lines 64–75): if
the first cell, stripped and lowercased, is exactly `"tipo de documento"`,
headers are row 0 and data starts at row 1; otherwise headers are row 1 and
data starts at row 2, except that a 1-row file keeps row 0 as headers with
no data and a 2-row file reuses row 1 as both header and single data row
(`data = raw.iloc[1:]` when `len(raw) <= 2`).  An empty sheet makes
`raw.iloc[…]` raise, hence `none`. -/
def loadFileSplit (raw : List (List String)) : Option Table :=
  match raw with
  | [] => none
  | r0 :: rest =>
    if lowerS (trimPy (r0.headD "")) = "tipo de documento" then
      some (r0, rest)
    else
      match rest with
      | [] => some (r0, [])
      | [r1] => some (r1, [r1])
      | r1 :: r2 :: rs => some (r1, r2 :: rs)

/-- `load_file` (src/data_loader.py, lines 54–115): a missing path returns an
empty table (`if not path.exists(): return pd.DataFrame()`); the read itself
is *not* wrapped in try/except, so a read failure propagates.  The
downstream column renaming, numeric coercion and derived columns operate on
the split result and are not part of the embedded fragment. -/
def loadFileE (fs : String → FState (List (List String))) (path : String) :
    Except String Table :=
  if fs path = FState.missing then .ok ([], [])
  else
    match readF (fs path) with
    | .error e => .error e
    | .ok raw =>
        match loadFileSplit raw with
        | some t => .ok t
        | none => .error "IndexError"

/-- Index of the first row satisfying `p` (the header-row scans of the
nomina/exogena/retenciones loaders; defaults to row 0 when none matches). -/
def findRowIdxAux (p : List String → Bool) : List (List String) → Nat → Option Nat
  | [], _ => none
  | r :: rs, i => if p r then some i else findRowIdxAux p rs (i + 1)

/-- Shared header split of the auxiliary loaders: the first row with at
least `n` non-null cells becomes the header, later non-empty rows are data
(`dropna(how="all")`).  Cells are modelled as strings with `""` for null;
`load_nomina`'s additional `isinstance(v, str)` condition holds for every
non-null cell in this model. -/
def auxSplit (n : Nat) (raw : List (List String)) : Table :=
  let h := (findRowIdxAux (fun row => n ≤ (row.filter (fun c => c ≠ "")).length) raw 0).getD 0
  (raw.getD h [], (raw.drop (h + 1)).filter (fun row => row.any (fun c => c ≠ "")))

/-- `load_nomina` (src/data_loader.py, lines 333–410): the read is wrapped in
`try: … except Exception: return pd.DataFrame()`, so any read failure is
absorbed into an empty table.  The fuzzy column renaming and numeric
coercion that follow are not part of the embedded fragment. -/
def loadNominaE (fs : String → FState (List (List String))) (path : String) :
    Except String Table :=
  match readF (fs path) with
  | .error _ => .ok ([], [])
  | .ok raw => .ok (auxSplit 3 raw)

/-- `load_exogena` (src/data_loader.py, lines 429–485): same absorbing
try/except around the read; header threshold 4 non-null cells. -/
def loadExogenaE (fs : String → FState (List (List String))) (path : String) :
    Except String Table :=
  match readF (fs path) with
  | .error _ => .ok ([], [])
  | .ok raw => .ok (auxSplit 4 raw)

/-- `load_retenciones` (src/data_loader.py, lines 489–540): same absorbing
try/except around the read; header threshold 3 non-null cells. -/
def loadRetencionesE (fs : String → FState (List (List String))) (path : String) :
    Except String Table :=
  match readF (fs path) with
  | .error _ => .ok ([], [])
  | .ok raw => .ok (auxSplit 3 raw)

/-- A PDF document as seen by `parse_bank_statement`: the text of the first
pages (bank detection) and the extracted tables. -/
structure PdfDoc where
  headerText : String
  tables : List (List (List String))

structure BankResult where
  banco : String
  movimientos : List NormRow

/-- `parse_bank_statement` (src/bank_analyzer.py, lines 639–716): the whole
body sits in `try: … except Exception as e: logger.error(…); raise`, so any
open/parse failure propagates to the caller.  The success branch shown here
is the generic table path (bank detection, `_parse_tables`,
`_normalize_from_table` with its `≥ 3` raw / `≥ 2` normalized row gates);
the Bancolombia-specialized branch, the regex-over-text fallback and the
header-metadata fields do not affect the exception routing and are not
modelled. -/
def parseBankStatementE (fs : String → FState PdfDoc) (path : String) :
    Except String BankResult :=
  match readF (fs path) with
  | .error e => .error e
  | .ok doc =>
      let banco := detectBank doc.headerText
      let dfRaw := parseTables doc.tables
      let movs :=
        if 3 ≤ dfRaw.rows.length then
          let norm := normalizeFromTable dfRaw banco
          if 2 ≤ norm.length then norm else []
        else []
      .ok { banco := banco, movimientos := movs }

/-! ## Multi-period merge and deduplication (src/app.py `_load_all_merged`,
lines 249–284)

An invoice row carries its CUFE/CUDE cell — `none` models a pandas `NaN`
(missing fingerprint); pandas `drop_duplicates` treats `NaN` cells as equal
to one another, which `Option.none = Option.none` reproduces — plus the
remaining cells, opaque for the merge. -/

structure InvRow where
  cufe : Option String
  campos : List String
deriving DecidableEq, Repr

/-- `drop_duplicates(subset=["CUFE/CUDE"], keep="first")`: keep a row iff its
CUFE value has not been seen before, preserving order. -/
def dedupCufe (seen : List (Option String)) : List InvRow → List InvRow
  | [] => []
  | r :: rs =>
      if r.cufe ∈ seen then dedupCufe seen rs
      else r :: dedupCufe (r.cufe :: seen) rs

/-- The set of CUFE values already seen after `dedupCufe` has walked `l`. -/
def seenAfter : List (Option String) → List InvRow → List (Option String)
  | seen, [] => seen
  | seen, r :: rs =>
      if r.cufe ∈ seen then seenAfter seen rs else seenAfter (r.cufe :: seen) rs

/-- `_load_all_merged` (src/app.py, lines 249–284) for the `ventas`/`compras`
report types: the uploads (newest first, as `get_uploads` returns them) are
reversed to chronological order, their successfully loaded tables are
concatenated, and the result is deduplicated on the CUFE/CUDE column keeping
the first (oldest) occurrence.  Vanished or failing files are skipped before
this point; the argument is the list of loaded per-upload tables. -/
def loadAllMergedVentas (uploadsNewestFirst : List (List InvRow)) : List InvRow :=
  dedupCufe [] uploadsNewestFirst.reverse.flatten

/-- A Colombian-convention formatted amount, for the round-trip property:
one to three leading digits, dot-separated groups of three digits, a comma
and two decimals — the strings generated by the regex
`^\d{1,3}(\.\d{3})+(,\d\d)$`. -/
def renderCol (lead : List Char) (groups : List (List Char)) (d1 d2 : Char) : List Char :=
  lead ++ (groups.map (fun g => '.' :: g)).flatten ++ [',', d1, d2]

/-- The concrete raw table of the C3 counterexample: a generic bank table
whose debit and credit columns are filled independently. -/
def c3Tabla : RawTable :=
  ⟨["FECHA", "DESCRIPCION", "DEBITO", "CREDITO"],
   [["01/01/2024", "PAGO PRUEBA X", "100", "200"],
    ["02/01/2024", "SALDO INICIAL X", "0", "0"]]⟩

/-! ## Lemmas about the CUFE/CUDE deduplication -/

/-- Unfolding lemmas for the emitted row's fields. -/
lemma mkMovRow_debito (y em : Nat) (prev : Option ℚ) (l : TxLine) :
    (mkMovRow y em prev l).debito =
      if txIsCredit prev (upperL l.desc.toList) (cleanNumber l.saldoStr) then 0
      else cleanNumber l.valorStr := rfl

lemma mkMovRow_credito (y em : Nat) (prev : Option ℚ) (l : TxLine) :
    (mkMovRow y em prev l).credito =
      if txIsCredit prev (upperL l.desc.toList) (cleanNumber l.saldoStr) then
        cleanNumber l.valorStr
      else 0 := rfl

lemma txIsCredit_some (p : ℚ) (du : List Char) (s : ℚ) :
    txIsCredit (some p) du s = decide (s - p > -1) := rfl

lemma txIsCredit_none (du : List Char) (s : ℚ) :
    txIsCredit none du s = creditKws.any (fun k => containsL du k.toList) := rfl

lemma seenAfter_mem (l : List InvRow) :
    ∀ (seen : List (Option String)) (k : Option String), k ∈ seen → k ∈ seenAfter seen l := by
  induction l with
  | nil => intro seen k h; simpa [seenAfter] using h
  | cons r rs ih =>
    intro seen k h
    by_cases hc : r.cufe ∈ seen
    · simpa [seenAfter, hc] using ih seen k h
    · simpa [seenAfter, hc] using ih (r.cufe :: seen) k (List.mem_cons_of_mem _ h)

lemma seenAfter_mem_of_row (l : List InvRow) :
    ∀ (seen : List (Option String)) (r : InvRow), r ∈ l → r.cufe ∈ seenAfter seen l := by
  induction l with
  | nil => intro seen r h; exact absurd h (List.not_mem_nil r)
  | cons a rs ih =>
    intro seen r h
    rcases List.mem_cons.mp h with rfl | hmem
    · by_cases hc : r.cufe ∈ seen
      · simpa [seenAfter, hc] using seenAfter_mem rs seen r.cufe hc
      · simpa [seenAfter, hc] using
          seenAfter_mem rs (r.cufe :: seen) r.cufe (List.mem_cons_self _ _)
    · by_cases hc : a.cufe ∈ seen
      · simpa [seenAfter, hc] using ih seen r hmem
      · simpa [seenAfter, hc] using ih (a.cufe :: seen) r hmem

lemma dedupCufe_nil_of_seen (l : List InvRow) :
    ∀ seen : List (Option String), (∀ r ∈ l, r.cufe ∈ seen) → dedupCufe seen l = [] := by
  induction l with
  | nil => intro seen _; rfl
  | cons a rs ih =>
    intro seen h
    have ha : a.cufe ∈ seen := h a (List.mem_cons_self _ _)
    simpa [dedupCufe, ha] using ih seen (fun r hr => h r (List.mem_cons_of_mem _ hr))

lemma dedupCufe_append (l₁ l₂ : List InvRow) :
    ∀ seen : List (Option String),
      dedupCufe seen (l₁ ++ l₂) = dedupCufe seen l₁ ++ dedupCufe (seenAfter seen l₁) l₂ := by
  induction l₁ with
  | nil => intro seen; simp [dedupCufe, seenAfter]
  | cons a rs ih =>
    intro seen
    by_cases hc : a.cufe ∈ seen
    · simpa [dedupCufe, seenAfter, hc] using ih seen
    · simpa [dedupCufe, seenAfter, hc] using ih (a.cufe :: seen)

lemma dedupCufe_filter_of_seen (l : List InvRow) :
    ∀ (seen : List (Option String)) (k : Option String), k ∈ seen →
      (dedupCufe seen l).filter (fun r => r.cufe = k) = [] := by
  induction l with
  | nil => intro seen k _; rfl
  | cons a rs ih =>
    intro seen k hk
    by_cases hc : a.cufe ∈ seen
    · simpa [dedupCufe, hc] using ih seen k hk
    · have hne : ¬ a.cufe = k := fun h => hc (h ▸ hk)
      simpa [dedupCufe, hc, List.filter_cons, hne] using
        ih (a.cufe :: seen) k (List.mem_cons_of_mem _ hk)

lemma dedupCufe_filter_first (l : List InvRow) :
    ∀ (seen : List (Option String)) (k : Option String), k ∉ seen →
      (dedupCufe seen l).filter (fun r => r.cufe = k)
        = (l.filter (fun r => r.cufe = k)).take 1 := by
  induction l with
  | nil => intro seen k _; rfl
  | cons a rs ih =>
    intro seen k hk
    by_cases hc : a.cufe ∈ seen
    · have hne : ¬ a.cufe = k := fun h => hk (h ▸ hc)
      simpa [dedupCufe, hc, List.filter_cons, hne] using ih seen k hk
    · by_cases heq : a.cufe = k
      · subst heq
        have h1 : (dedupCufe (a.cufe :: seen) rs).filter (fun r => r.cufe = a.cufe) = [] :=
          dedupCufe_filter_of_seen rs (a.cufe :: seen) a.cufe (List.mem_cons_self _ _)
        simp [dedupCufe, hc, List.filter_cons, h1]
      · have hk2 : k ∉ a.cufe :: seen := by
          intro h
          rcases List.mem_cons.mp h with h | h
          · exact heq h.symm
          · exact hk h
        simpa [dedupCufe, hc, List.filter_cons, heq] using ih (a.cufe :: seen) k hk2

/-! ## C1, C10: merge deduplication -/

/-- **C1.** Merging all uploads for the sales/purchases report type
deduplicates on the CUFE/CUDE column keeping the first (oldest-upload)
occurrence: merging the same loaded file twice gives the very same merged
table as merging it once (hence the same row count), and when two uploads
(`u1` the older, `u2` the newer, listed newest-first as `get_uploads`
returns them) both contain an invoice with CUFE `"ABC123"`, the merged
result contains exactly one row with that CUFE — the first such row of the
oldest upload. -/
theorem c1_merge_dedup_cufe :
    (∀ f : List InvRow, loadAllMergedVentas [f, f] = loadAllMergedVentas [f]) ∧
    (∀ u1 u2 : List InvRow,
      (∃ r ∈ u1, r.cufe = some "ABC123") →
      (∃ r ∈ u2, r.cufe = some "ABC123") →
      (loadAllMergedVentas [u2, u1]).filter (fun r => r.cufe = some "ABC123")
          = (u1.filter (fun r => r.cufe = some "ABC123")).take 1 ∧
      ((loadAllMergedVentas [u2, u1]).filter (fun r => r.cufe = some "ABC123")).length
          = 1) := by
  constructor
  · intro f
    have h := dedupCufe_append f f []
    have h2 : dedupCufe (seenAfter [] f) f = [] :=
      dedupCufe_nil_of_seen f (seenAfter [] f) (fun r hr => seenAfter_mem_of_row f [] r hr)
    simp [loadAllMergedVentas, h, h2]
  · intro u1 u2 h1 _
    have hkey : (some "ABC123" : Option String) ∉ ([] : List (Option String)) :=
      List.not_mem_nil _
    have hmerge : loadAllMergedVentas [u2, u1] = dedupCufe [] (u1 ++ u2) := by
      simp [loadAllMergedVentas]
    have hfil := dedupCufe_filter_first (u1 ++ u2) [] (some "ABC123") hkey
    obtain ⟨r, hr, hrc⟩ := h1
    have hrmem : r ∈ u1.filter (fun r => r.cufe = some "ABC123") :=
      List.mem_filter.mpr ⟨hr, by simp [hrc]⟩
    obtain ⟨a, t, hft⟩ : ∃ a t, u1.filter (fun r => r.cufe = some "ABC123") = a :: t := by
      cases hf : u1.filter (fun r => r.cufe = some "ABC123") with
      | nil => rw [hf] at hrmem; exact absurd hrmem (List.not_mem_nil r)
      | cons a t => exact ⟨a, t, rfl⟩
    rw [hmerge, hfil, List.filter_append, hft]
    constructor
    · simp
    · simp

/-- **C1 witness.** Two concrete sales uploads sharing CUFE `"ABC123"`:
merging keeps exactly the older upload's row. -/
theorem c1_merge_dedup_cufe_witness :
    (loadAllMergedVentas
        [[⟨some "ABC123", ["nueva"]⟩], [⟨some "ABC123", ["vieja"]⟩, ⟨some "Z", ["otra"]⟩]]).filter
        (fun r => r.cufe = some "ABC123")
      = [⟨some "ABC123", ["vieja"]⟩] := by
  have h := (c1_merge_dedup_cufe.2
    [⟨some "ABC123", ["vieja"]⟩, ⟨some "Z", ["otra"]⟩]
    [⟨some "ABC123", ["nueva"]⟩]
    (by decide) (by decide)).1
  rw [h]
  decide

/-- **C10.** In the merged sales/purchases dataset rows with a missing
CUFE/CUDE (`none`, the model of a pandas `NaN`) are deduplicated against one
another as a single key value: the merged result never keeps more than one
such row, and keeps exactly one — the chronologically first — as soon as any
upload contributed a fingerprint-less row. -/
theorem c10_missing_cufe_collapse :
    (∀ frames : List (List InvRow),
      ((loadAllMergedVentas frames).filter (fun r => r.cufe = none)).length ≤ 1) ∧
    (∀ frames : List (List InvRow),
      (∃ f ∈ frames, ∃ r ∈ f, r.cufe = none) →
      ((loadAllMergedVentas frames).filter (fun r => r.cufe = none)).length = 1) := by
  have key : ∀ frames : List (List InvRow),
      (loadAllMergedVentas frames).filter (fun r => r.cufe = none)
        = ((frames.reverse.flatten).filter (fun r => r.cufe = none)).take 1 := by
    intro frames
    exact dedupCufe_filter_first frames.reverse.flatten [] none (List.not_mem_nil _)
  constructor
  · intro frames
    rw [key frames, List.length_take]
    omega
  · intro frames ⟨f, hf, r, hr, hrc⟩
    have hmem : r ∈ frames.reverse.flatten :=
      List.mem_flatten.mpr ⟨f, List.mem_reverse.mpr hf, hr⟩
    have hfil : r ∈ (frames.reverse.flatten).filter (fun r => r.cufe = none) :=
      List.mem_filter.mpr ⟨hmem, by simp [hrc]⟩
    rw [key frames]
    cases hf2 : (frames.reverse.flatten).filter (fun r => r.cufe = none) with
    | nil => rw [hf2] at hfil; exact absurd hfil (List.not_mem_nil r)
    | cons a t => simp

/-- **C10 witness.** Two uploads each containing an invoice with no
CUFE/CUDE: exactly one fingerprint-less row survives the merge. -/
theorem c10_missing_cufe_collapse_witness :
    ((loadAllMergedVentas [[⟨none, ["b"]⟩], [⟨none, ["a"]⟩]]).filter
        (fun r => r.cufe = none)).length = 1 :=
  c10_missing_cufe_collapse.2 [[⟨none, ["b"]⟩], [⟨none, ["a"]⟩]]
    ⟨[⟨none, ["b"]⟩], by decide, ⟨none, ["b"]⟩, by decide, rfl⟩

/-! ## C2: the single-group input `"1.234"` -/

unseal Rat.add Rat.sub Rat.mul Rat.inv in
/-- **C2 counterexample.** The claim says the single-group input `"1.234"`
falls through to the decimal-point interpretation and yields `1.234`.  It
does not: the grouped-dots regex `^\d{1,3}(\.\d{3})+(,\d+)?$` requires one
or more dot-groups, so `"1.234"` matches it and is read as Colombian
thousands, yielding `1234`. -/
theorem c2_single_group_counterexample :
    cleanNumber "1.234" = 1234 ∧ cleanNumber "1.234" ≠ 1234 / 1000 := by
  decide

unseal Rat.add Rat.sub Rat.mul Rat.inv in
/-- **C2 amended.** The dot-grouped pattern of `_clean_number` requires one
or more (not two or more) groups of three digits, so the single-group input
`"1.234"` matches it and is treated as Colombian-style thousands separators,
yielding `1234`; only inputs that fail the pattern (such as `"12.34"` or
`"1.2345"`) fall through to the decimal-point interpretation. -/
theorem c2_single_group_amended :
    colMatch "1.234".toList = true ∧ cleanNumber "1.234" = 1234 ∧
    colMatch "12.34".toList = false ∧ cleanNumber "12.34" = 1234 / 100 ∧
    colMatch "1.2345".toList = false ∧ cleanNumber "1.2345" = 12345 / 10000 := by
  decide

/-! ## C8: DIAN header-row convention detection -/

/-- **C8 counterexample.** The claim says that whenever the first cell is
not the document-type label, headers come from row 1 and data starts at
row 2.  On a two-row legacy file the code instead reuses row 1 as both the
header and the single data row (`data = raw.iloc[1:]` because
`len(raw) > 2` fails), so the data does not start at row 2 (which would be
empty here). -/
theorem c8_header_detection_counterexample :
    (loadFileSplit [["TITULO X"], ["COL A"]]).map (fun t => t.2) = some [["COL A"]] ∧
    [["TITULO X"], ["COL A"]].drop 2 = ([] : List (List String)) := by
  decide

/-- **C8 amended.** `load_file` detects the header convention exactly, by a
binary comparison of the stripped, lowercased first cell with
`"tipo de documento"` and with no fuzzy fallback: on equality, headers are
row 0 and data starts at row 1; otherwise, for files with at least three
rows, headers are row 1 and data starts at row 2, while the degenerate
legacy files keep a fallback (a two-row file reuses row 1 as both header
and only data row, a one-row file takes row 0 as headers with no data). -/
theorem c8_header_detection_amended :
    (∀ (r0 : List String) (rest : List (List String)),
      lowerS (trimPy (r0.headD "")) = "tipo de documento" →
      loadFileSplit (r0 :: rest) = some (r0, rest)) ∧
    (∀ (r0 r1 r2 : List String) (rs : List (List String)),
      lowerS (trimPy (r0.headD "")) ≠ "tipo de documento" →
      loadFileSplit (r0 :: r1 :: r2 :: rs) = some (r1, r2 :: rs)) ∧
    (∀ r0 r1 : List String,
      lowerS (trimPy (r0.headD "")) ≠ "tipo de documento" →
      loadFileSplit [r0, r1] = some (r1, [r1])) ∧
    (∀ r0 : List String,
      lowerS (trimPy (r0.headD "")) ≠ "tipo de documento" →
      loadFileSplit [r0] = some (r0, [])) := by
  refine ⟨?_, ?_, ?_, ?_⟩ <;> intro r0 <;> intros <;> simp_all [loadFileSplit]

/-- **C8 witness.** A new-portal file whose first cell is
`"Tipo de documento"`: headers are row 0, the invoice rows start at row 1. -/
theorem c8_header_detection_amended_witness :
    loadFileSplit [["Tipo de documento", "CUFE/CUDE"], ["Factura Electrónica", "abc1"]]
      = some (["Tipo de documento", "CUFE/CUDE"], [["Factura Electrónica", "abc1"]]) :=
  c8_header_detection_amended.1 ["Tipo de documento", "CUFE/CUDE"]
    [["Factura Electrónica", "abc1"]] (by decide)

/-! ## C9: propagation of file I/O failure -/

/-- **C9 counterexample.** The claim says every exposed loader propagates a
file I/O failure as an exception.  The nómina / exógena / retenciones
loaders wrap their read in `try: … except Exception: return pd.DataFrame()`
and so absorb a corrupt-file failure into an empty table, and `load_file`
turns a vanished file into an empty table as well (`if not path.exists():
return pd.DataFrame()`). -/
theorem c9_io_error_counterexample :
    loadNominaE (fun _ => FState.corrupt) "nomina.xlsx" = Except.ok (([], []) : Table) ∧
    loadExogenaE (fun _ => FState.corrupt) "exogena.xlsx" = Except.ok (([], []) : Table) ∧
    loadRetencionesE (fun _ => FState.corrupt) "ret.xlsx" = Except.ok (([], []) : Table) ∧
    loadFileE (fun _ => FState.missing) "ventas.xlsx" = Except.ok (([], []) : Table) := by
  refine ⟨rfl, rfl, rfl, rfl⟩

/-- **C9 amended.** Error routing of the loaders, per function: the bank
statement parser re-raises any open/parse failure (missing or corrupt
file → exception); `load_file` propagates a read failure on an existing
(corrupt) file but returns an empty table when the path does not exist; and
`load_nomina` / `load_exogena` / `load_retenciones` absorb every read
failure into an empty table instead of raising. -/
theorem c9_io_error_amended :
    (∀ (fs : String → FState PdfDoc) (p : String),
      fs p = FState.missing ∨ fs p = FState.corrupt →
      ∃ e, parseBankStatementE fs p = Except.error e) ∧
    (∀ (fs : String → FState (List (List String))) (p : String),
      fs p = FState.corrupt → loadFileE fs p = Except.error "ParserError") ∧
    (∀ (fs : String → FState (List (List String))) (p : String),
      fs p = FState.missing → loadFileE fs p = Except.ok (([], []) : Table)) ∧
    (∀ (fs : String → FState (List (List String))) (p : String),
      fs p = FState.missing ∨ fs p = FState.corrupt →
      loadNominaE fs p = Except.ok (([], []) : Table) ∧
      loadExogenaE fs p = Except.ok (([], []) : Table) ∧
      loadRetencionesE fs p = Except.ok (([], []) : Table)) := by
  refine ⟨?_, ?_, ?_, ?_⟩
  · intro fs p h
    rcases h with h | h
    · exact ⟨"FileNotFoundError", by simp [parseBankStatementE, h, readF]⟩
    · exact ⟨"ParserError", by simp [parseBankStatementE, h, readF]⟩
  · intro fs p h
    simp [loadFileE, h, readF]
  · intro fs p h
    simp [loadFileE, h, readF]
  · intro fs p h
    rcases h with h | h <;>
      exact ⟨by simp [loadNominaE, h, readF], by simp [loadExogenaE, h, readF],
             by simp [loadRetencionesE, h, readF]⟩

/-- **C9 witness.** A corrupt PDF makes the bank statement parser raise. -/
theorem c9_io_error_amended_witness :
    ∃ e, parseBankStatementE (fun _ => FState.corrupt) "extracto.pdf" = Except.error e :=
  c9_io_error_amended.1 (fun _ => FState.corrupt) "extracto.pdf" (Or.inr rfl)

/-! ## Lemmas about the first-match classifier -/

lemma classifyGo_first (du : List Char) :
    ∀ (rules : List (String × List String)) (i : Nat) (cat : String) (kws : List String),
      rules[i]? = some (cat, kws) →
      kws.any (fun k => containsL du k.toList) = true →
      (rules.take i).all (fun r => r.2.all (fun k => !containsL du k.toList)) = true →
      classifyGo du rules = cat := by
  intro rules
  induction rules with
  | nil => intro i cat kws h _ _; simp at h
  | cons r0 rest ih =>
    obtain ⟨c0, k0⟩ := r0
    intro i cat kws h hany hall
    match i with
    | 0 =>
      simp at h
      obtain ⟨h1, h2⟩ := h
      subst h1; subst h2
      simp only [classifyGo]
      rw [if_pos hany]
    | Nat.succ i =>
      simp at h
      rw [List.take_succ_cons, List.all_cons] at hall
      rw [Bool.and_eq_true] at hall
      obtain ⟨hk0, htail⟩ := hall
      have hany0 : k0.any (fun k => containsL du k.toList) = false := by
        cases hx : k0.any (fun k => containsL du k.toList)
        · rfl
        · exfalso
          obtain ⟨k, hk, hkt⟩ := List.any_eq_true.mp hx
          have h2 := List.all_eq_true.mp hk0 k hk
          rw [hkt] at h2
          simp at h2
      simp only [classifyGo]
      rw [if_neg (by rw [hany0]; decide)]
      exact ih i cat kws h hany htail

lemma classifyGo_otro (du : List Char) :
    ∀ rules : List (String × List String),
      rules.all (fun r => r.2.all (fun k => !containsL du k.toList)) = true →
      classifyGo du rules = "otro" := by
  intro rules
  induction rules with
  | nil => intro _; rfl
  | cons r0 rest ih =>
    obtain ⟨c0, k0⟩ := r0
    intro hall
    rw [List.all_cons, Bool.and_eq_true] at hall
    obtain ⟨hk0, htail⟩ := hall
    have hany0 : k0.any (fun k => containsL du k.toList) = false := by
      cases hx : k0.any (fun k => containsL du k.toList)
      · rfl
      · exfalso
        obtain ⟨k, hk, hkt⟩ := List.any_eq_true.mp hx
        have h2 := List.all_eq_true.mp hk0 k hk
        rw [hkt] at h2
        simp at h2
    simp only [classifyGo]
    rw [if_neg (by rw [hany0]; decide)]
    exact ih htail

/-! ## C4: category classification -/

/-- **C4.** `_classify` is a pure function of the description string
(definitionally, being a Lean function): it uppercases the description,
walks the ordered `CATEGORY_RULES` table, assigns the first category having
any keyword hit by substring search, and assigns `"otro"` when no keyword of
any rule hits.  In particular `"4X1000 RETIRO CAJERO"` classifies as
`"gmf_4x1000"`, not `"retiro"`, because the GMF rule precedes the
withdrawal rule. -/
theorem c4_classifier_priority :
    classify "4X1000 RETIRO CAJERO" = "gmf_4x1000" ∧
    (∀ (d : String) (i : Nat) (cat : String) (kws : List String),
      d ≠ "" →
      CATEGORY_RULES[i]? = some (cat, kws) →
      kws.any (fun k => containsL (upperL d.toList) k.toList) = true →
      (CATEGORY_RULES.take i).all
        (fun r => r.2.all (fun k => !containsL (upperL d.toList) k.toList)) = true →
      classify d = cat) ∧
    (∀ d : String,
      CATEGORY_RULES.all
        (fun r => r.2.all (fun k => !containsL (upperL d.toList) k.toList)) = true →
      classify d = "otro") := by
  refine ⟨by decide, ?_, ?_⟩
  · intro d i cat kws hd h hany hall
    unfold classify
    rw [if_neg hd]
    exact classifyGo_first (upperL d.toList) CATEGORY_RULES i cat kws h hany hall
  · intro d hall
    unfold classify
    by_cases hd : d = ""
    · simp [hd]
    · rw [if_neg hd]
      exact classifyGo_otro (upperL d.toList) CATEGORY_RULES hall

/-- **C4 witness.** `"RETIRO CAJERO"` hits the withdrawal rule (index 8) and
no earlier rule, so it classifies as `"retiro"`. -/
theorem c4_classifier_priority_witness : classify "RETIRO CAJERO" = "retiro" :=
  c4_classifier_priority.2.1 "RETIRO CAJERO" 8 "retiro"
    ["RETIRO ", "CAJERO", "ATM ", "PAGO TC", "CUOTA TC",
     "AVANCE TC", "AVANCE ATM", "COMPRA TARJETA", "COMPRA EN"]
    (by decide) (by decide) (by decide) (by decide)

/-! ## C3: debit/credit mutual exclusivity -/

unseal Rat.add Rat.sub Rat.mul Rat.inv in
/-- **C3 counterexample.** The claim says every emitted row of every parser
path has exactly one positive side and that both-zero rows are dropped.  In
the generic table path (`_normalize_from_table`) the debit and credit
columns are read independently and no both-zero filter exists: a row with
debit 100 and credit 200 is emitted as-is, and a row with both amounts zero
(and a long enough description) survives as well. -/
theorem c3_mutual_exclusivity_counterexample :
    (normalizeFromTable c3Tabla "Banco Genérico").any
        (fun r => decide (0 < r.debito) && decide (0 < r.credito)) = true ∧
    (normalizeFromTable c3Tabla "Banco Genérico").any
        (fun r => decide (r.debito = 0) && decide (r.credito = 0)) = true := by
  decide

/-- **C3 amended.** Debit/credit mutual exclusivity holds for the rows
emitted by the Bancolombia PDF transaction loop: every emitted row carries
the (necessarily ≥ 0.01) `VALOR` on exactly one side, the other being zero.
The generic table/text paths do not enforce it (see the counterexample):
there debit and credit are read from independent columns, and rows with
both sides positive or both sides zero survive whenever the description
filter passes. -/
theorem c3_bancolombia_xor :
    ∀ (y em : Nat) (prev : Option ℚ) (lines : List TxLine) (r : MovRow),
      r ∈ processTx y em prev lines →
      (0 < r.debito ∧ r.credito = 0) ∨ (0 < r.credito ∧ r.debito = 0) := by
  intro y em prev lines
  induction lines generalizing prev with
  | nil => intro r h; simp [processTx] at h
  | cons l ls ih =>
    intro r h
    rw [processTx] at h
    by_cases h1 : headerHit l = true
    · rw [if_pos h1] at h; exact ih prev r h
    · rw [if_neg h1] at h
      by_cases h2 : cleanNumber l.valorStr < 1/100
      · rw [if_pos h2] at h; exact ih prev r h
      · rw [if_neg h2] at h
        rcases List.mem_cons.mp h with rfl | hmem
        · have hv : 0 < cleanNumber l.valorStr :=
            lt_of_lt_of_le (by norm_num) (not_lt.mp h2)
          cases hcr : txIsCredit prev (upperL l.desc.toList) (cleanNumber l.saldoStr)
          · refine Or.inl ⟨?_, ?_⟩
            · rw [mkMovRow_debito, hcr, if_neg (by simp)]; exact hv
            · rw [mkMovRow_credito, hcr, if_neg (by simp)]
          · refine Or.inr ⟨?_, ?_⟩
            · rw [mkMovRow_credito, hcr, if_pos rfl]; exact hv
            · rw [mkMovRow_debito, hcr, if_pos rfl]
        · exact ih (some (cleanNumber l.saldoStr)) r hmem

unseal Rat.add Rat.sub Rat.mul Rat.inv in
/-- **C3 amended witness.** A concrete emitted Bancolombia row satisfies the
exclusive-or. -/
theorem c3_bancolombia_xor_witness :
    (0 < (⟨"05/01/2024", "COMPRA UNO", 400, 0, 1000, "Bancolombia"⟩ : MovRow).debito ∧
        (⟨"05/01/2024", "COMPRA UNO", 400, 0, 1000, "Bancolombia"⟩ : MovRow).credito = 0) ∨
    (0 < (⟨"05/01/2024", "COMPRA UNO", 400, 0, 1000, "Bancolombia"⟩ : MovRow).credito ∧
        (⟨"05/01/2024", "COMPRA UNO", 400, 0, 1000, "Bancolombia"⟩ : MovRow).debito = 0) :=
  c3_bancolombia_xor 2024 12 none [⟨5, 1, "COMPRA UNO", "400", "1000"⟩]
    ⟨"05/01/2024", "COMPRA UNO", 400, 0, 1000, "Bancolombia"⟩ (by decide)

/-! ## C6: credit inference from the running balance -/

unseal Rat.add Rat.sub Rat.mul Rat.inv in
/-- **C6.** In the Bancolombia PDF parser the credit-vs-debit direction of a
row with a previous balance `p` is decided by comparing the row's balance to
`p` — credit exactly when the balance did not drop by one peso or more
(`saldo - p > -1`, the ±1 rounding tolerance) — and the very first row,
having no previous balance, falls back to credit-keyword inference on the
description.  For the balance sequence `[1000, 1500, 1200]` with no sign
column and no prior balance, the rows come out (debit 400), (credit 500),
(debit 300): the deltas +500 and −300 classify credit and debit. -/
theorem c6_balance_delta_credit :
    ((parseBancolombiaTx 2024 12 0
        [⟨5, 1, "COMPRA UNO", "400", "1000"⟩,
         ⟨6, 1, "COMPRA DOS", "500", "1500"⟩,
         ⟨7, 1, "COMPRA TRES", "300", "1200"⟩]).map (fun r => (r.debito, r.credito))
      = [(400, 0), (0, 500), (300, 0)]) ∧
    (∀ (y em : Nat) (p : ℚ) (l : TxLine) (ls : List TxLine),
      headerHit l = false →
      ¬ cleanNumber l.valorStr < 1/100 →
      (processTx y em (some p) (l :: ls)).head?.map (fun r => (r.debito, r.credito))
        = some (if cleanNumber l.saldoStr - p > -1
                then ((0 : ℚ), cleanNumber l.valorStr)
                else (cleanNumber l.valorStr, 0))) ∧
    (∀ (y em : Nat) (l : TxLine) (ls : List TxLine),
      headerHit l = false →
      ¬ cleanNumber l.valorStr < 1/100 →
      (processTx y em none (l :: ls)).head?.map (fun r => (r.debito, r.credito))
        = some (if creditKws.any (fun k => containsL (upperL l.desc.toList) k.toList)
                then ((0 : ℚ), cleanNumber l.valorStr)
                else (cleanNumber l.valorStr, 0))) := by
  refine ⟨by decide, ?_, ?_⟩
  · intro y em p l ls h1 h2
    rw [processTx, if_neg (by simp [h1]), if_neg h2]
    simp only [List.head?_cons, Option.map_some']
    rw [mkMovRow_debito, mkMovRow_credito, txIsCredit_some]
    by_cases hc : cleanNumber l.saldoStr - p > -1
    · rw [decide_eq_true hc, if_pos rfl, if_pos rfl, if_pos hc]
    · rw [decide_eq_false hc, if_neg (by simp), if_neg (by simp), if_neg hc]
  · intro y em l ls h1 h2
    rw [processTx, if_neg (by simp [h1]), if_neg h2]
    simp only [List.head?_cons, Option.map_some']
    rw [mkMovRow_debito, mkMovRow_credito, txIsCredit_none]
    by_cases hc : (creditKws.any fun k => containsL (upperL l.desc.toList) k.toList) = true
    · rw [if_pos hc, if_pos hc, if_pos hc]
    · rw [if_neg hc, if_neg hc, if_neg hc]

unseal Rat.add Rat.sub Rat.mul Rat.inv in
/-- **C6 witness.** The middle row of the scenario: previous balance 1000,
current balance 1500, delta +500 > −1 ⇒ credit 500. -/
theorem c6_balance_delta_credit_witness :
    (processTx 2024 12 (some 1000) [⟨6, 1, "COMPRA DOS", "500", "1500"⟩]).head?.map
        (fun r => (r.debito, r.credito)) = some ((0 : ℚ), (500 : ℚ)) :=
  (c6_balance_delta_credit.2.1 2024 12 1000 ⟨6, 1, "COMPRA DOS", "500", "1500"⟩ []
    (by decide) (by decide)).trans (by decide)

/-! ## C7: year derivation for day/month-only transaction dates -/

/-- **C7.** Every row emitted by the Bancolombia PDF transaction loop gets
its year from the statement's declared end date (the `HASTA:` header values
`year`/`endMonth` the loop receives), decremented by one exactly when the
transaction's month is strictly greater than the declared end month; the
date is formatted `dd/mm/yyyy` from the line's day and month. -/
theorem c7_year_rollback :
    ∀ (y em : Nat) (prev : Option ℚ) (lines : List TxLine) (r : MovRow),
      r ∈ processTx y em prev lines →
      ∃ l ∈ lines, r.descripcion = l.desc ∧
        r.fecha = pad2 l.day ++ "/" ++ pad2 l.mon ++ "/"
          ++ toString (if em < l.mon then y - 1 else y) := by
  intro y em prev lines
  induction lines generalizing prev with
  | nil => intro r h; simp [processTx] at h
  | cons l ls ih =>
    intro r h
    rw [processTx] at h
    by_cases h1 : headerHit l = true
    · rw [if_pos h1] at h
      obtain ⟨l', hl', hp⟩ := ih prev r h
      exact ⟨l', List.mem_cons_of_mem _ hl', hp⟩
    · rw [if_neg h1] at h
      by_cases h2 : cleanNumber l.valorStr < 1/100
      · rw [if_pos h2] at h
        obtain ⟨l', hl', hp⟩ := ih prev r h
        exact ⟨l', List.mem_cons_of_mem _ hl', hp⟩
      · rw [if_neg h2] at h
        rcases List.mem_cons.mp h with rfl | hmem
        · exact ⟨l, List.mem_cons_self _ _, rfl, rfl⟩
        · obtain ⟨l', hl', hp⟩ := ih (some (cleanNumber l.saldoStr)) r hmem
          exact ⟨l', List.mem_cons_of_mem _ hl', hp⟩

/-! ## Lemmas for the Colombian number round-trip -/

lemma takeWhile_all_append (p : Char → Bool) (l r : List Char)
    (h : ∀ c ∈ l, p c = true) : (l ++ r).takeWhile p = l ++ r.takeWhile p := by
  induction l with
  | nil => simp
  | cons a t ih =>
    have ha : p a = true := h a (List.mem_cons_self _ _)
    simp [List.takeWhile_cons, ha, ih (fun c hc => h c (List.mem_cons_of_mem _ hc))]

lemma dropWhile_all_append (p : Char → Bool) (l r : List Char)
    (h : ∀ c ∈ l, p c = true) : (l ++ r).dropWhile p = r.dropWhile p := by
  induction l with
  | nil => simp
  | cons a t ih =>
    have ha : p a = true := h a (List.mem_cons_self _ _)
    simp [List.dropWhile_cons, ha, ih (fun c hc => h c (List.mem_cons_of_mem _ hc))]

lemma dropWhile_all_false (p : Char → Bool) (l : List Char)
    (h : ∀ c ∈ l, p c = false) : l.dropWhile p = l := by
  cases l with
  | nil => rfl
  | cons a t => simp [List.dropWhile_cons, h a (List.mem_cons_self _ _)]

lemma stripWS_no_ws (l : List Char) (h : ∀ c ∈ l, pyWS c = false) : stripWS l = l := by
  unfold stripWS
  rw [dropWhile_all_false pyWS l h,
      dropWhile_all_false pyWS l.reverse (fun c hc => h c (List.mem_reverse.mp hc)),
      List.reverse_reverse]

lemma digit_not_ws (c : Char) (h : c.isDigit = true) : pyWS c = false := by
  cases hw : pyWS c
  · rfl
  · exfalso
    simp only [pyWS, Bool.or_eq_true, decide_eq_true_eq] at hw
    rcases hw with ((((rfl | rfl) | rfl) | rfl) | rfl) | rfl <;> exact absurd h (by decide)

lemma digit_ne (c d : Char) (hd : d.isDigit = false) (hc : c.isDigit = true) : c ≠ d := by
  intro h
  rw [h] at hc
  rw [hc] at hd
  exact Bool.noConfusion hd

lemma filter_all_keep (p : Char → Bool) (l : List Char)
    (h : ∀ c ∈ l, p c = true) : l.filter p = l := by
  induction l with
  | nil => rfl
  | cons a t ih =>
    simp [List.filter_cons, h a (List.mem_cons_self _ _),
          ih (fun c hc => h c (List.mem_cons_of_mem _ hc))]

lemma map_all_fix (f : Char → Char) (l : List Char)
    (h : ∀ c ∈ l, f c = c) : l.map f = l := by
  induction l with
  | nil => rfl
  | cons a t ih =>
    simp [h a (List.mem_cons_self _ _), ih (fun c hc => h c (List.mem_cons_of_mem _ hc))]

lemma colRest_comma (ds : List Char) :
    colRest (',' :: ds) = (!ds.isEmpty && ds.all Char.isDigit) := rfl

lemma colRest_dot (a b c : Char) (rest : List Char) :
    colRest ('.' :: a :: b :: c :: rest)
      = (a.isDigit && b.isDigit && c.isDigit && colRest rest) := rfl

lemma colGroupsStart_dot (a b c : Char) (rest : List Char) :
    colGroupsStart ('.' :: a :: b :: c :: rest)
      = (a.isDigit && b.isDigit && c.isDigit && colRest rest) := rfl

lemma colRest_groups (gs : List (List Char)) :
    ∀ (d1 d2 : Char),
      (∀ g ∈ gs, g.length = 3 ∧ ∀ c ∈ g, c.isDigit = true) →
      d1.isDigit = true → d2.isDigit = true →
      colRest ((gs.map (fun g => '.' :: g)).flatten ++ [',', d1, d2]) = true := by
  induction gs with
  | nil =>
    intro d1 d2 _ h1 h2
    simp only [List.map_nil, List.flatten_nil, List.nil_append, colRest_comma]
    simp [h1, h2]
  | cons g gs ih =>
    intro d1 d2 hg h1 h2
    obtain ⟨hlen, hdig⟩ := hg g (List.mem_cons_self _ _)
    obtain ⟨a, b, c, rfl⟩ := List.length_eq_three.mp hlen
    have ha := hdig a (by simp)
    have hb := hdig b (by simp)
    have hc := hdig c (by simp)
    simp only [List.map_cons, List.flatten_cons, List.cons_append, List.append_assoc,
               colRest_dot]
    rw [ha, hb, hc]
    simp only [Bool.true_and]
    exact ih d1 d2 (fun g' hg' => hg g' (List.mem_cons_of_mem _ hg')) h1 h2

lemma pyFloatCore_split (ip fr : List Char) (hip : ∀ c ∈ ip, c.isDigit = true)
    (hfr : ∀ c ∈ fr, c.isDigit = true) (hne : ip ≠ []) :
    pyFloatCore (ip ++ '.' :: fr)
      = some ((natOfDigits ip : ℚ) + (natOfDigits fr : ℚ) / (10 : ℚ) ^ fr.length) := by
  have htake : (ip ++ '.' :: fr).takeWhile Char.isDigit = ip := by
    rw [takeWhile_all_append Char.isDigit ip ('.' :: fr) hip]
    simp [List.takeWhile_cons]
  have hdrop : (ip ++ '.' :: fr).dropWhile Char.isDigit = '.' :: fr := by
    rw [dropWhile_all_append Char.isDigit ip ('.' :: fr) hip]
    simp [List.dropWhile_cons]
  have h1 : fr.all Char.isDigit = true := List.all_eq_true.mpr hfr
  have h2 : ip.isEmpty = false := by
    cases ip with
    | nil => exact absurd rfl hne
    | cons _ _ => rfl
  unfold pyFloatCore
  rw [htake, hdrop]
  rw [if_neg (by simp), if_pos (show ('.' :: fr).head? = some '.' from rfl)]
  simp only [List.tail_cons]
  rw [if_pos (by rw [h1, h2]; rfl)]

lemma pyFloat_digits (ip fr : List Char) (hip : ∀ c ∈ ip, c.isDigit = true)
    (hfr : ∀ c ∈ fr, c.isDigit = true) (hne : ip ≠ []) :
    pyFloat (ip ++ '.' :: fr)
      = some ((natOfDigits ip : ℚ) + (natOfDigits fr : ℚ) / (10 : ℚ) ^ fr.length) := by
  obtain ⟨e, ip', rfl⟩ := List.exists_cons_of_ne_nil hne
  have he : e.isDigit = true := hip e (List.mem_cons_self _ _)
  unfold pyFloat
  rw [if_neg]
  · exact pyFloatCore_split _ _ hip hfr (by simp)
  · simp only [List.cons_append, List.head?_cons, Option.some.injEq]
    exact digit_ne e '-' (by decide) he

lemma filter_dots_flatten (gs : List (List Char))
    (h : ∀ g ∈ gs, ∀ c ∈ g, c.isDigit = true) :
    ((gs.map (fun g => '.' :: g)).flatten).filter (fun x => x ≠ '.') = gs.flatten := by
  induction gs with
  | nil => rfl
  | cons g gs ih =>
    have hg := h g (List.mem_cons_self _ _)
    have hhead : ('.' :: g).filter (fun x => x ≠ '.') = g := by
      rw [List.filter_cons, if_neg (by decide)]
      exact filter_all_keep _ g
        (fun x hx => decide_eq_true (digit_ne x '.' (by decide) (hg x hx)))
    simp only [List.map_cons, List.flatten_cons, List.filter_append, hhead,
               ih (fun g' hg' c' hc' => h g' (List.mem_cons_of_mem _ hg') c' hc')]

/-- The Colombian branch of `_clean_number`: strip, pass the degenerate and
pattern tests, remove dots, turn the comma into a dot, keep `[0-9.\-]`,
parse. -/
lemma cleanNumberL_colombian (t : List Char)
    (hs : stripWS t = t)
    (hdeg : ¬(t = [] ∨ t = ['-'] ∨ t = ['—'] ∨ t = ['.']))
    (hcol : colMatch t = true) :
    cleanNumberL t
      = (match pyFloat (((t.filter (fun c => c ≠ '.')).map
            (fun c => if c = ',' then '.' else c)).filter
              (fun c => c.isDigit || c = '.' || c = '-')) with
         | some q => q
         | none => 0) := by
  simp only [cleanNumberL, hs]
  rw [if_neg hdeg, if_pos hcol]

unseal Rat.add Rat.sub Rat.mul Rat.inv in
/-- **C5.** The number normalizer maps `"1.234.567,89"` to `1234567.89`,
and in general maps every Colombian-convention formatted amount (one to
three leading digits, dot-separated three-digit groups, comma and two
decimals) to exactly the amount it denotes — the concatenated digits as the
integer part plus the two decimals over 100 — hence within any tolerance,
in particular 0.01. -/
theorem c5_colombian_roundtrip :
    cleanNumber "1.234.567,89" = 123456789 / 100 ∧
    (∀ (lead : List Char) (groups : List (List Char)) (d1 d2 : Char),
      1 ≤ lead.length → lead.length ≤ 3 →
      (∀ c ∈ lead, c.isDigit = true) →
      groups ≠ [] →
      (∀ g ∈ groups, g.length = 3 ∧ ∀ c ∈ g, c.isDigit = true) →
      d1.isDigit = true → d2.isDigit = true →
      cleanNumberL (renderCol lead groups d1 d2)
        = (natOfDigits (lead ++ groups.flatten) : ℚ)
          + (natOfDigits [d1, d2] : ℚ) / 100) := by
  constructor
  · decide
  · intro lead groups d1 d2 hlen1 hlen3 hld hgne hgs h1 h2
    obtain ⟨g, gs, rfl⟩ := List.exists_cons_of_ne_nil hgne
    obtain ⟨hglen, hgdig⟩ := hgs g (List.mem_cons_self _ _)
    obtain ⟨a, b, c, rfl⟩ := List.length_eq_three.mp hglen
    have ha := hgdig a (by simp)
    have hb := hgdig b (by simp)
    have hc := hgdig c (by simp)
    obtain ⟨e, lead', rfl⟩ : ∃ e l', lead = e :: l' := by
      cases lead with
      | nil => simp at hlen1
      | cons e l' => exact ⟨e, l', rfl⟩
    have hgs' : ∀ g' ∈ gs, g'.length = 3 ∧ ∀ c' ∈ g', c'.isDigit = true :=
      fun g' hg' => hgs g' (List.mem_cons_of_mem _ hg')
    -- every character of the flattened group area is a dot or a digit
    have hMchar : ∀ x ∈ (gs.map (fun g' => '.' :: g')).flatten,
        x = '.' ∨ x.isDigit = true := by
      intro x hx
      rw [List.mem_flatten] at hx
      obtain ⟨L, hL, hxL⟩ := hx
      rw [List.mem_map] at hL
      obtain ⟨g', hg', rfl⟩ := hL
      rcases List.mem_cons.mp hxL with rfl | hxg
      · exact Or.inl rfl
      · exact Or.inr ((hgs' g' hg').2 x hxg)
    -- canonical form of the rendered string
    have hR : renderCol (e :: lead') ([a, b, c] :: gs) d1 d2
        = (e :: lead')
          ++ '.' :: a :: b :: c
            :: ((gs.map (fun g' => '.' :: g')).flatten ++ [',', d1, d2]) := by
      simp [renderCol, List.append_assoc]
    rw [hR]
    -- (A) stripping is the identity: no whitespace anywhere
    have hstrip : stripWS ((e :: lead')
        ++ '.' :: a :: b :: c
          :: ((gs.map (fun g' => '.' :: g')).flatten ++ [',', d1, d2]))
        = (e :: lead')
          ++ '.' :: a :: b :: c
            :: ((gs.map (fun g' => '.' :: g')).flatten ++ [',', d1, d2]) := by
      apply stripWS_no_ws
      intro x hx
      rcases List.mem_append.mp hx with hx | hx
      · exact digit_not_ws x (hld x hx)
      · rcases List.mem_cons.mp hx with rfl | hx
        · decide
        · rcases List.mem_cons.mp hx with rfl | hx
          · exact digit_not_ws _ ha
          · rcases List.mem_cons.mp hx with rfl | hx
            · exact digit_not_ws _ hb
            · rcases List.mem_cons.mp hx with rfl | hx
              · exact digit_not_ws _ hc
              · rcases List.mem_append.mp hx with hx | hx
                · rcases hMchar x hx with rfl | hd
                  · decide
                  · exact digit_not_ws x hd
                · rcases List.mem_cons.mp hx with rfl | hx
                  · decide
                  · rcases List.mem_cons.mp hx with rfl | hx
                    · exact digit_not_ws _ h1
                    · rcases List.mem_cons.mp hx with rfl | hx
                      · exact digit_not_ws _ h2
                      · exact absurd hx (List.not_mem_nil x)
    -- (B) the degenerate test fails
    have hdeg : ¬((e :: lead')
        ++ '.' :: a :: b :: c
          :: ((gs.map (fun g' => '.' :: g')).flatten ++ [',', d1, d2]) = []
      ∨ (e :: lead')
        ++ '.' :: a :: b :: c
          :: ((gs.map (fun g' => '.' :: g')).flatten ++ [',', d1, d2]) = ['-']
      ∨ (e :: lead')
        ++ '.' :: a :: b :: c
          :: ((gs.map (fun g' => '.' :: g')).flatten ++ [',', d1, d2]) = ['—']
      ∨ (e :: lead')
        ++ '.' :: a :: b :: c
          :: ((gs.map (fun g' => '.' :: g')).flatten ++ [',', d1, d2]) = ['.']) := by
      rintro (h | h | h | h) <;> simp at h
    -- (C) the grouped-dots pattern matches
    have hldall : ∀ x ∈ e :: lead', Char.isDigit x = true := hld
    have htakeR : ((e :: lead')
        ++ '.' :: a :: b :: c
          :: ((gs.map (fun g' => '.' :: g')).flatten ++ [',', d1, d2])).takeWhile
            Char.isDigit = e :: lead' := by
      rw [takeWhile_all_append Char.isDigit _ _ hldall]
      simp [List.takeWhile_cons]
    have hdropR : ((e :: lead')
        ++ '.' :: a :: b :: c
          :: ((gs.map (fun g' => '.' :: g')).flatten ++ [',', d1, d2])).dropWhile
            Char.isDigit
        = '.' :: a :: b :: c
            :: ((gs.map (fun g' => '.' :: g')).flatten ++ [',', d1, d2]) := by
      rw [dropWhile_all_append Char.isDigit _ _ hldall]
      simp [List.dropWhile_cons]
    have hcol : colMatch ((e :: lead')
        ++ '.' :: a :: b :: c
          :: ((gs.map (fun g' => '.' :: g')).flatten ++ [',', d1, d2])) = true := by
      simp only [colMatch, htakeR, hdropR, colGroupsStart_dot]
      rw [ha, hb, hc, colRest_groups gs d1 d2 hgs' h1 h2,
          decide_eq_true hlen1, decide_eq_true hlen3]
      rfl
    -- switch to the Colombian branch
    rw [cleanNumberL_colombian _ hstrip hdeg hcol]
    -- (D) removing the dots
    have hfillead : (e :: lead').filter (fun x => x ≠ '.') = e :: lead' :=
      filter_all_keep _ _
        (fun x hx => decide_eq_true (digit_ne x '.' (by decide) (hld x hx)))
    have hcommatail : ([',', d1, d2] : List Char).filter (fun x => x ≠ '.')
        = [',', d1, d2] := by
      apply filter_all_keep
      intro x hx
      simp only [List.mem_cons, List.not_mem_nil, or_false] at hx
      rcases hx with rfl | rfl | rfl
      · decide
      · exact decide_eq_true (digit_ne _ '.' (by decide) h1)
      · exact decide_eq_true (digit_ne _ '.' (by decide) h2)
    have hfil : ((e :: lead')
        ++ '.' :: a :: b :: c
          :: ((gs.map (fun g' => '.' :: g')).flatten ++ [',', d1, d2])).filter
            (fun x => x ≠ '.')
        = (e :: lead') ++ a :: b :: c :: (gs.flatten ++ [',', d1, d2]) := by
      rw [List.filter_append, hfillead]
      rw [List.filter_cons, if_neg (by decide)]
      rw [List.filter_cons, if_pos (decide_eq_true (digit_ne a '.' (by decide) ha))]
      rw [List.filter_cons, if_pos (decide_eq_true (digit_ne b '.' (by decide) hb))]
      rw [List.filter_cons, if_pos (decide_eq_true (digit_ne c '.' (by decide) hc))]
      rw [List.filter_append, filter_dots_flatten gs (fun g' hg' => (hgs' g' hg').2),
          hcommatail]
    rw [hfil]
    -- (E) the comma becomes the decimal point
    have hmap : ((e :: lead') ++ a :: b :: c :: (gs.flatten ++ [',', d1, d2])).map
          (fun x => if x = ',' then '.' else x)
        = (e :: lead') ++ a :: b :: c :: (gs.flatten ++ ['.', d1, d2]) := by
      have hfix : ∀ x : Char, x.isDigit = true → (if x = ',' then '.' else x) = x :=
        fun x hx => if_neg (digit_ne x ',' (by decide) hx)
      rw [List.map_append, map_all_fix _ _ (fun x hx => hfix x (hld x hx))]
      simp only [List.map_cons, hfix a ha, hfix b hb, hfix c hc, List.map_append]
      rw [map_all_fix _ gs.flatten (fun x hx => hfix x ?hgflat)]
      · simp [hfix d1 h1, hfix d2 h2]
      case hgflat =>
        rw [List.mem_flatten] at hx
        obtain ⟨g', hg', hxg⟩ := hx
        exact (hgs' g' hg').2 x hxg
    rw [hmap]
    -- (F) the `[0-9.\-]` keep-filter is the identity here
    have hgflatdig : ∀ x ∈ gs.flatten, x.isDigit = true := by
      intro x hx
      rw [List.mem_flatten] at hx
      obtain ⟨g', hg', hxg⟩ := hx
      exact (hgs' g' hg').2 x hxg
    have hkeep : ((e :: lead') ++ a :: b :: c :: (gs.flatten ++ ['.', d1, d2])).filter
          (fun x => x.isDigit || x = '.' || x = '-')
        = (e :: lead') ++ a :: b :: c :: (gs.flatten ++ ['.', d1, d2]) := by
      apply filter_all_keep
      intro x hx
      rcases List.mem_append.mp hx with hx | hx
      · simp [hld x hx]
      · rcases List.mem_cons.mp hx with rfl | hx
        · simp [ha]
        · rcases List.mem_cons.mp hx with rfl | hx
          · simp [hb]
          · rcases List.mem_cons.mp hx with rfl | hx
            · simp [hc]
            · rcases List.mem_append.mp hx with hx | hx
              · simp [hgflatdig x hx]
              · rcases List.mem_cons.mp hx with rfl | hx
                · decide
                · rcases List.mem_cons.mp hx with rfl | hx
                  · simp [h1]
                  · rcases List.mem_cons.mp hx with rfl | hx
                    · simp [h2]
                    · exact absurd hx (List.not_mem_nil x)
    rw [hkeep]
    -- (G) parsing the cleaned string
    have hassoc : (e :: lead') ++ a :: b :: c :: (gs.flatten ++ ['.', d1, d2])
        = ((e :: lead') ++ a :: b :: c :: gs.flatten) ++ '.' :: [d1, d2] := by
      simp [List.append_assoc]
    rw [hassoc]
    have hip : ∀ x ∈ (e :: lead') ++ a :: b :: c :: gs.flatten, x.isDigit = true := by
      intro x hx
      rcases List.mem_append.mp hx with hx | hx
      · exact hld x hx
      · rcases List.mem_cons.mp hx with rfl | hx
        · exact ha
        · rcases List.mem_cons.mp hx with rfl | hx
          · exact hb
          · rcases List.mem_cons.mp hx with rfl | hx
            · exact hc
            · exact hgflatdig x hx
    have hfr : ∀ x ∈ ([d1, d2] : List Char), x.isDigit = true := by
      intro x hx
      rcases List.mem_cons.mp hx with rfl | hx
      · exact h1
      · rcases List.mem_cons.mp hx with rfl | hx
        · exact h2
        · exact absurd hx (List.not_mem_nil x)
    rw [pyFloat_digits ((e :: lead') ++ a :: b :: c :: gs.flatten) [d1, d2] hip hfr
        (by simp)]
    -- (H) final arithmetic: the parsed value is the denoted amount
    norm_num [List.flatten_cons, List.cons_append, List.append_assoc]

unseal Rat.add Rat.sub Rat.mul Rat.inv in
/-- **C5 witness.** The general round-trip applied to the rendering of
`1 234 567.89`: the lead digit `1`, groups `234`, `567`, decimals `89`. -/
theorem c5_colombian_roundtrip_witness :
    cleanNumberL (renderCol ['1'] [['2', '3', '4'], ['5', '6', '7']] '8' '9')
      = 123456789 / 100 :=
  (c5_colombian_roundtrip.2 ['1'] [['2', '3', '4'], ['5', '6', '7']] '8' '9'
    (by decide) (by decide) (by decide) (by decide) (by decide) (by decide)
    (by decide)).trans (by decide)

unseal Rat.add Rat.sub Rat.mul Rat.inv in
/-- **C7 witness.** A December transaction on a statement ending in March
2024 is assigned the year 2023. -/
theorem c7_year_rollback_witness :
    ∃ l ∈ [(⟨15, 12, "PAGO ALGO", "100", "900"⟩ : TxLine)],
      (⟨"15/12/2023", "PAGO ALGO", 100, 0, 900, "Bancolombia"⟩ : MovRow).descripcion
          = l.desc ∧
      (⟨"15/12/2023", "PAGO ALGO", 100, 0, 900, "Bancolombia"⟩ : MovRow).fecha
          = pad2 l.day ++ "/" ++ pad2 l.mon ++ "/"
            ++ toString (if 3 < l.mon then 2024 - 1 else 2024) :=
  c7_year_rollback 2024 3 none [⟨15, 12, "PAGO ALGO", "100", "900"⟩]
    ⟨"15/12/2023", "PAGO ALGO", 100, 0, 900, "Bancolombia"⟩ (by decide)

end ContabilidadDian
